import Mathlib

/-
Verification of the USGA NCRDB course scraper (`pull_course_data.py`).

The Python module is shallowly embedded below.  Transport concerns (the
browser session, HTTP fetching, HTML parsing) are modelled by their observable
interface, per the spec's §6 collaborator contracts: a listing page is the
header-cell texts plus the body rows (each row being the first anchor's href,
if any, and the `td` texts); a detail page is either a fetch failure, a page
without the tee table, or the tee table's rows of cell texts.  Timestamps
(`datetime.datetime.now()`), the current date (`get_date()`) and pandas'
`to_datetime`-based date normalisation are threaded as explicit parameters.
Python dictionaries are association lists with insert-or-overwrite semantics,
pandas DataFrames are a column-name list plus rows, and Python exceptions are
an explicit `Except` result.  Console prints and `time.sleep` calls are
returned as explicit signal/event traces.  The progress-bar rendering is a
side channel per spec §4.4/§6 and is not modelled.
-/

namespace Usga

/-- Python exception kinds raised by the modelled code paths. -/
inductive PyErr
  | nameError | indexError | keyError | valueError | lookupError | netError
deriving DecidableEq, Repr

/-- ASCII lower-casing of one character, modelling Python `str.lower` on the
character set the scraper handles. -/
def lowerC (c : Char) : Char := c.toLower

/-- Python regex `\s` on ASCII text: space, tab, newline, carriage return,
vertical tab and form feed. -/
def isWsC (c : Char) : Bool := c.toNat == 32 || (9 ≤ c.toNat && c.toNat ≤ 13)

/-- Membership in the class `[a-z0-9]` used by the listing-header regex. -/
def sqlKeep (c : Char) : Bool := (('a' ≤ c && c ≤ 'z') || ('0' ≤ c && c ≤ '9'))

/-- `re.sub(r'[^a-z0-9]+', '_', s)`: each maximal run of characters outside
`[a-z0-9]` becomes a single underscore.  The boolean records whether the
previous character was part of such a run. -/
def sqlRunsAux : Bool → List Char → List Char
  | _, [] => []
  | inRun, c :: cs =>
    if sqlKeep c then c :: sqlRunsAux false cs
    else if inRun then sqlRunsAux true cs
    else '_' :: sqlRunsAux true cs

/-- Listing-header normalisation (line 99 of the source):
`re.sub(r'[^a-z0-9]+', '_', col.lower())`. -/
def sqlNorm (s : String) : String :=
  String.mk (sqlRunsAux false (s.data.map lowerC))

/-- `re.sub(r'\s+', '_', s)`: each maximal whitespace run becomes one `_`. -/
def wsRunsAux : Bool → List Char → List Char
  | _, [] => []
  | inRun, c :: cs =>
    if isWsC c then (if inRun then wsRunsAux true cs else '_' :: wsRunsAux true cs)
    else c :: wsRunsAux false cs

/-- Membership in `[A-Za-z0-9\._/]` (detail-header keep class). -/
def hdrKeep (c : Char) : Bool := c.isAlpha || c.isDigit || c == '.' || c == '_' || c == '/'

/-- Membership in `[A-Za-z0-9\./]` (detail-cell keep class). -/
def cellKeep (c : Char) : Bool := c.isAlpha || c.isDigit || c == '.' || c == '/'

/-- Python `str.strip('_')`: remove leading and trailing underscores. -/
def stripUnd (l : List Char) : List Char :=
  ((l.dropWhile (· == '_')).reverse.dropWhile (· == '_')).reverse

/-- Trailing-only underscore trim, as the spec's words describe it. -/
def stripUndRight (l : List Char) : List Char :=
  (l.reverse.dropWhile (· == '_')).reverse

/-- Detail-table header transform (line 250 of the source):
`re.sub(r'[^A-Za-z0-9\._/]+', '', re.sub(r'\s+', '_', th.text.lower())).strip('_')`. -/
def headerXform (s : String) : String :=
  String.mk (stripUnd ((wsRunsAux false (s.data.map lowerC)).filter hdrKeep))

/-- The header transform as the spec describes it: identical pipeline but
trimming only trailing underscores. -/
def headerXformClaim (s : String) : String :=
  String.mk (stripUndRight ((wsRunsAux false (s.data.map lowerC)).filter hdrKeep))

/-- Detail-cell transform (line 255): `re.sub(r'[^A-Za-z0-9\./]+', '', td.text.lower())`. -/
def cellXform (s : String) : String :=
  String.mk ((s.data.map lowerC).filter cellKeep)

/-- The maximal leading digit run of a character list. -/
def leadDigits (l : List Char) : List Char := l.takeWhile Char.isDigit

/-- `re.search(r'CourseID=(\d+)', s)`: scan left to right for a position where
the literal `CourseID=` is followed by at least one digit; capture the maximal
digit run there. -/
def findCourseId : List Char → Option String
  | [] => none
  | c :: cs =>
    if (c :: cs).take 9 = "CourseID=".data ∧ (((c :: cs).drop 9).headD ' ').isDigit then
      some (String.mk (leadDigits ((c :: cs).drop 9)))
    else findCourseId cs

/-! ### Python dictionaries and DataFrames -/

/-- A Python dict with string keys and string-or-`None` values, as an ordered
association list (insertion order preserved, assignment overwrites in place). -/
abbrev Dict := List (String × Option String)

def dkeys (d : Dict) : List String := d.map Prod.fst

/-- `d[k] = v`: overwrite in place if the key exists, else append. -/
def dinsert (d : Dict) (k : String) (v : Option String) : Dict :=
  if (dkeys d).any (fun s => s == k)
  then d.map (fun p => if p.1 == k then (k, v) else p)
  else d ++ [(k, v)]

/-- `d[k]` as a lookup: `none` models a `KeyError`. -/
def dget (d : Dict) (k : String) : Option (Option String) :=
  (d.find? (fun p => p.1 == k)).map Prod.snd

/-- A pandas DataFrame: its column order plus its rows, each row addressed by
column name (missing key = NaN). -/
structure PDF where
  cols : List String
  rows : List Dict
deriving DecidableEq, Repr

/-! ### Listing extraction (`get_courses_by_state`, lines 49-174) -/

/-- One `tr` of the listing table: the first anchor's href, if the row has an
anchor with an href, and the `td` texts. -/
structure ListingRow where
  link : Option String
  tds  : List String
deriving DecidableEq, Repr

/-- The rendered listing table: `thead` div texts and the `tbody` rows. -/
structure ListingPage where
  headCells : List String
  rows : List ListingRow
deriving DecidableEq, Repr

/-- One record of the listing archive (a previously stored pull), with the
three columns the reconciliation reads. -/
structure ARow where
  url : String
  course_id : String
  city : String
deriving DecidableEq, Repr

/-- Console lines printed by the listing functions. -/
inductive Sig
  | warnModified (cid : String)
  | infoNew (cid : String)
  | infoEmpty
  | warnNoCourses (state : String)
deriving DecidableEq, Repr

/-- Outcome of the try-block at lines 111-121: either the row has no anchor
(the `[0]` indexing raises before `url_ext` is assigned), or the anchor's href
has no `CourseID` match (the exception fires after `url_ext` is assigned but
before `course_id` is), or both are extracted. -/
inductive ParseRes
  | noAnchor
  | anchorNoId (href : String)
  | okParse (href : String) (cid : String)
deriving DecidableEq, Repr

def parseRow (r : ListingRow) : ParseRes :=
  match r.link with
  | none => .noAnchor
  | some h =>
    match findCourseId h.data with
    | none => .anchorNoId h
    | some cid => .okParse h cid

/-- The `td` loop at lines 124-125: `course[headers[i+3]] = td.text`; an
out-of-range header index raises `IndexError` (uncaught). -/
def fillTds (hdrs : List String) (d : Dict) (tds : List String) (i : Nat) : Except PyErr Dict :=
  match tds with
  | [] => .ok d
  | t :: ts =>
    match hdrs[i+3]? with
    | none => .error .indexError
    | some hname => fillTds hdrs (dinsert d hname (some t)) ts (i+1)

/-- `sum(criteria.values())` of the three booleans. -/
def classifyB (curl ccid ccity : Bool) : Nat := curl.toNat + ccid.toNat + ccity.toNat

/-- Lines 137-159: evaluate the three match criteria against the archive using
the given `url_ext` and `course_id` values, and decide the row's fate.
Returns whether to append, and which console line (if any) to print; a missing
`city` key in the course dict raises `KeyError`. -/
def archDecision (arch : List ARow) (base u c : String) (course : Dict) :
    Except PyErr (Bool × Option Sig) :=
  let curl := arch.any (fun a => a.url == base ++ u)
  let ccid := arch.any (fun a => a.course_id == c)
  let cityRes : Except PyErr Bool :=
    if ccid then
      match dget course "city" with
      | none => .error .keyError
      | some cv => .ok ((arch.filter (fun a => a.course_id == c)).all (fun a => cv == some a.city))
    else .ok false
  match cityRes with
  | .error e => .error e
  | .ok ccity =>
    if curl && ccid && ccity then .ok (false, none)
    else if 0 < classifyB curl ccid ccity ∧ classifyB curl ccid ccity < 3 then
      .ok (true, some (.warnModified c))
    else .ok (true, some (.infoNew c))

/-- State threaded through the row loop: the Python locals `url_ext` and
`course_id` (which survive across iterations; `none` = not yet bound), the
accumulated `courses` list, the console lines printed so far, and the pending
exception if one was raised. -/
structure LoopSt where
  urlExt   : Option String
  courseId : Option String
  courses  : List Dict
  sigs     : List Sig
  err      : Option PyErr
deriving DecidableEq, Repr

def initSt : LoopSt := ⟨none, none, [], [], none⟩

/-- Package an `archDecision` outcome back into the loop state. -/
def applyDecision (st : LoopSt) (uE cI : Option String) (course : Dict)
    (d : Except PyErr (Bool × Option Sig)) : LoopSt :=
  match d with
  | .error e => { urlExt := uE, courseId := cI, courses := st.courses, sigs := st.sigs, err := some e }
  | .ok (app, sg) =>
    { urlExt := uE, courseId := cI,
      courses := st.courses ++ (if app then [course] else []),
      sigs := st.sigs ++ (match sg with | none => [] | some s => [s]),
      err := none }

/-- The value of the local `url_ext` after the try-block: reassigned whenever
line 112 succeeded, otherwise whatever it was before. -/
def urlExtAfter (st : LoopSt) (pr : ParseRes) : Option String :=
  match pr with
  | .noAnchor => st.urlExt
  | .anchorNoId h => some h
  | .okParse h _ => some h

/-- The value of the local `course_id` after the try-block: reassigned only
when line 113 succeeded. -/
def courseIdAfter (st : LoopSt) (pr : ParseRes) : Option String :=
  match pr with
  | .okParse _ c => some c
  | _ => st.courseId

/-- The course dict after lines 115-121: both entries are the parsed values on
success and `None` on either failure. -/
def course0Of (base : String) (pr : ParseRes) : Dict :=
  match pr with
  | .okParse h c => [("url", some (base ++ h)), ("course_id", some c)]
  | _ => [("url", none), ("course_id", none)]

/-- One iteration of the row loop (lines 106-164).  Faithful to the Python
variable semantics: on a parse failure the locals `url_ext`/`course_id` keep
their previous values (only partially updated in the `anchorNoId` case), and
the archive comparison reads whatever those locals currently hold, raising
`NameError` if one is still unbound. -/
def step (archive : Option (List ARow)) (base now : String) (hdrs : List String)
    (st : LoopSt) (r : ListingRow) : LoopSt :=
  if st.err.isSome then st else
  match fillTds hdrs (course0Of base (parseRow r)) r.tds 0 with
  | .error e =>
    { urlExt := urlExtAfter st (parseRow r), courseId := courseIdAfter st (parseRow r),
      courses := st.courses, sigs := st.sigs, err := some e }
  | .ok d1 =>
    match archive with
    | none =>
      { urlExt := urlExtAfter st (parseRow r), courseId := courseIdAfter st (parseRow r),
        courses := st.courses ++ [dinsert d1 "last_updated" (some now)], sigs := st.sigs,
        err := none }
    | some arch =>
      match urlExtAfter st (parseRow r) with
      | none =>
        { urlExt := urlExtAfter st (parseRow r), courseId := courseIdAfter st (parseRow r),
          courses := st.courses, sigs := st.sigs, err := some .nameError }
      | some u =>
        match courseIdAfter st (parseRow r) with
        | none =>
          { urlExt := urlExtAfter st (parseRow r), courseId := courseIdAfter st (parseRow r),
            courses := st.courses, sigs := st.sigs, err := some .nameError }
        | some c =>
          applyDecision st (urlExtAfter st (parseRow r)) (courseIdAfter st (parseRow r))
            (dinsert d1 "last_updated" (some now))
            (archDecision arch base u c (dinsert d1 "last_updated" (some now)))

/-- Column-key union in first-appearance order, as `pd.DataFrame(list_of_dicts)`
derives its column order. -/
def dedupInto (acc : List String) (ks : List String) : List String :=
  ks.foldl (fun a k => if a.any (fun s => s == k) then a else a ++ [k]) acc

def dedupKeys (ds : List Dict) : List String :=
  ds.foldl (fun acc d => dedupInto acc (dkeys d)) []

/-- Line 98-99: headers are the three synthesized names plus the `thead` div
texts, all normalised. -/
def listingHeaders (pg : ListingPage) : List String :=
  (["url", "course_id", "last_updated"] ++ pg.headCells).map sqlNorm

/-- `get_courses_by_state` (lines 49-174).  `page = none` models the timeout at
lines 84-88 (table never visible: return `None`).  The pair's second component
is the console output. -/
def getCoursesByState (page : Option ListingPage) (archive : Option (List ARow))
    (base now : String) : Except PyErr (Option PDF) × List Sig :=
  match page with
  | none => (.ok none, [])
  | some pg =>
    let hdrs := listingHeaders pg
    let fin := pg.rows.foldl (step archive base now hdrs) initSt
    match fin.err with
    | some e => (.error e, fin.sigs)
    | none =>
      if fin.courses.isEmpty then
        (.ok (some ⟨hdrs, []⟩), fin.sigs ++ [.infoEmpty])
      else
        let cols0 := dedupKeys fin.courses
        let cols1 := cols0.erase "url" ++ ["url"]
        let cols2 := cols1.erase "last_updated" ++ ["last_updated"]
        (.ok (some ⟨cols2, fin.courses⟩), fin.sigs)

/-! ### Batch orchestration (`get_courses`, lines 178-218) -/

/-- State of the loop over states: collected per-state DataFrames, console
output so far, pending exception. -/
structure BatchSt where
  dfs : List PDF
  sigs : List Sig
  err : Option PyErr
deriving DecidableEq, Repr

/-- `pd.concat(list_of_dfs)`: columns are unioned in order of appearance,
rows are concatenated in order. -/
def concatPDF (dfs : List PDF) : PDF :=
  ⟨dfs.foldl (fun acc p => dedupInto acc p.cols) [], (dfs.map PDF.rows).flatten⟩

/-- One iteration of the state loop (lines 203-215); `pages` maps a state name
to its rendered listing page (`none` = the table never became visible). -/
def bstep (pages : String → Option ListingPage) (archive : Option (List ARow))
    (base now : String) (st : BatchSt) (s : String) : BatchSt :=
  if st.err.isSome then st else
  match (getCoursesByState (pages s) archive base now).1 with
  | .error e =>
    { dfs := st.dfs, sigs := st.sigs ++ (getCoursesByState (pages s) archive base now).2,
      err := some e }
  | .ok none =>
    { dfs := st.dfs,
      sigs := st.sigs ++ (getCoursesByState (pages s) archive base now).2 ++ [.warnNoCourses s],
      err := none }
  | .ok (some p) =>
    { dfs := st.dfs ++ [p], sigs := st.sigs ++ (getCoursesByState (pages s) archive base now).2,
      err := none }

/-- `get_courses` (lines 178-218).  `pd.concat` of an empty list raises
`ValueError` (line 218). -/
def getCourses (pages : String → Option ListingPage) (states : List String)
    (archive : Option (List ARow)) (base now : String) : Except PyErr PDF × List Sig :=
  let fin := states.foldl (bstep pages archive base now) ⟨[], [], none⟩
  match fin.err with
  | some e => (.error e, fin.sigs)
  | none =>
    if fin.dfs.isEmpty then (.error .valueError, fin.sigs)
    else (.ok (concatPDF fin.dfs), fin.sigs)

/-! ### Detail extraction (`get_course_details`, lines 221-264) -/

/-- A detail DataFrame: positional columns and rows of cell strings. -/
structure DDF where
  cols : List String
  rows : List (List String)
deriving DecidableEq, Repr

/-- What fetching one detail url yields: the request itself raising, a page
without a `gvTee` table, or the tee table's `tr` rows (cell texts). -/
inductive TeePage
  | fetchErr
  | noTable
  | table (trs : List (List String))
deriving DecidableEq, Repr

/-- The drop predicate of line 261: `df.drop(['', 'ch'], axis=1)` removes every
column named `''` or `'ch'`. -/
def keepCol (n : String) : Bool := !(n == "" || n == "ch")

/-- `get_course_details` (lines 221-264).  `table []` makes line 261 raise
`NameError` (`header` never assigned); a row/header length mismatch raises in
the `pd.DataFrame` constructor; `drop` raises `KeyError` when `''` or `'ch'`
is not a column label. -/
def getCourseDetails (p : TeePage) (cid : String) : Except PyErr (Option DDF) :=
  match p with
  | .fetchErr => .error .netError
  | .noTable => .ok none
  | .table [] => .error .nameError
  | .table (h :: rest) =>
    let header := h.map headerXform ++ ["course_id"]
    let deets := rest.map (fun r => r.map cellXform ++ [cid])
    if deets.any (fun r => r.length != header.length) then .error .valueError
    else if !(header.any (fun n => n == "")) || !(header.any (fun n => n == "ch")) then
      .error .keyError
    else
      let cols1 := header.filter keepCol
      let rows1 := deets.map (fun r =>
        (header.zip r).filterMap (fun q => if keepCol q.1 then some q.2 else none))
      if cols1.count "course_id" != 1 then .error .valueError
      else
        let cols2 := "course_id" :: cols1.erase "course_id"
        let rows2 := rows1.map (fun r =>
          match (cols1.zip r).find? (fun q => q.1 == "course_id") with
          | none => []
          | some q => q.2 :: ((cols1.zip r).filter (fun q2 => !(q2.1 == "course_id"))).map Prod.snd)
        .ok (some ⟨cols2, rows2⟩)

/-- The detail pipeline exactly as the spec's words describe it: identical to
`getCourseDetails` except the header cells are transformed with
`headerXformClaim` (trailing-underscore trim only). -/
def getCourseDetailsClaimed (p : TeePage) (cid : String) : Except PyErr (Option DDF) :=
  match p with
  | .fetchErr => .error .netError
  | .noTable => .ok none
  | .table [] => .error .nameError
  | .table (h :: rest) =>
    let header := h.map headerXformClaim ++ ["course_id"]
    let deets := rest.map (fun r => r.map cellXform ++ [cid])
    if deets.any (fun r => r.length != header.length) then .error .valueError
    else if !(header.any (fun n => n == "")) || !(header.any (fun n => n == "ch")) then
      .error .keyError
    else
      let cols1 := header.filter keepCol
      let rows1 := deets.map (fun r =>
        (header.zip r).filterMap (fun q => if keepCol q.1 then some q.2 else none))
      if cols1.count "course_id" != 1 then .error .valueError
      else
        let cols2 := "course_id" :: cols1.erase "course_id"
        let rows2 := rows1.map (fun r =>
          match (cols1.zip r).find? (fun q => q.1 == "course_id") with
          | none => []
          | some q => q.2 :: ((cols1.zip r).filter (fun q2 => !(q2.1 == "course_id"))).map Prod.snd)
        .ok (some ⟨cols2, rows2⟩)

/-! ### Detail aggregation (`get_course_details_all`, lines 267-346) -/

/-- The two listing-row fields the aggregator reads. -/
structure CRow where
  course_id : String
  url : String
deriving DecidableEq, Repr

/-- One row of `existing_data`: its `course_id` plus its remaining cells. -/
structure ERow where
  course_id : String
  cells : List String
deriving DecidableEq, Repr

/-- A record landing in one of the output buckets: a listing row (failed and
skipped buckets), a carried-over existing-data row, or a freshly fetched
detail row tagged with its DataFrame's columns. -/
inductive Rec
  | fromListing (r : CRow)
  | fromExisting (e : ERow)
  | fromFetch (cols : List String) (cells : List String)
deriving DecidableEq, Repr

/-- Externally observable per-item effects: the detail-page request and the
`time.sleep(sleep)` pacing delay. -/
inductive Ev
  | fetch (url : String)
  | pause
deriving DecidableEq, Repr

/-- The five accumulator lists of lines 300-304 plus the effect trace. -/
structure AggSt where
  allC : List (List Rec)
  newC : List (List Rec)
  failedC : List (List Rec)
  modifiedC : List (List Rec)
  skippedC : List (List Rec)
  evs : List Ev
deriving DecidableEq, Repr

def aggInit : AggSt := ⟨[], [], [], [], [], []⟩

/-- `pd.Series.unique().tolist()`: first-appearance deduplication. -/
def uniqueFirst (l : List String) : List String :=
  l.foldl (fun a s => if a.any (fun t => t == s) then a else a ++ [s]) []

/-- Lines 294-296: the exclusion list of `course_id`s from `existing_data`. -/
def excludeIds (existing : Option (List ERow)) : List String :=
  match existing with
  | none => []
  | some ex => uniqueFirst (ex.map ERow.course_id)

def isExcluded (existing : Option (List ERow)) (r : CRow) : Bool :=
  (excludeIds existing).any (fun s => s == r.course_id)

/-- Line 313: `existing_data[existing_data['course_id']==row['course_id']]`. -/
def carried (existing : Option (List ERow)) (r : CRow) : List Rec :=
  ((existing.getD []).filter (fun e => e.course_id == r.course_id)).map Rec.fromExisting

/-- The records of a fetched detail DataFrame. -/
def teeChunk (df : DDF) : List Rec := df.rows.map (Rec.fromFetch df.cols)

/-- Line 318: `get_course_details(row['url'], row['course_id'])` against the
site's pages. -/
def fetchOutcome (site : String → TeePage) (r : CRow) : Except PyErr (Option DDF) :=
  getCourseDetails (site r.url) r.course_id

/-- One iteration of the aggregation loop (lines 305-332).  Note the
`continue` statements: the excluded path and the exception path jump past the
`time.sleep(sleep)` at line 332. -/
def astep (existing : Option (List ERow)) (site : String → TeePage)
    (st : AggSt) (r : CRow) : AggSt :=
  if isExcluded existing r then
    { st with
      skippedC := st.skippedC ++ [[Rec.fromListing r]]
      allC := st.allC ++ [carried existing r] }
  else
    match fetchOutcome site r with
    | .error _ =>
      { st with failedC := st.failedC ++ [[Rec.fromListing r]], evs := st.evs ++ [.fetch r.url] }
    | .ok none =>
      { st with
        skippedC := st.skippedC ++ [[Rec.fromListing r]]
        evs := st.evs ++ [.fetch r.url, .pause] }
    | .ok (some df) =>
      { st with
        allC := st.allC ++ [teeChunk df]
        newC := st.newC ++ [teeChunk df]
        evs := st.evs ++ [.fetch r.url, .pause] }

def runAgg (rows : List CRow) (existing : Option (List ERow)) (site : String → TeePage) : AggSt :=
  rows.foldl (astep existing site) aggInit

/-- Lines 340-344: an empty accumulator list becomes `None`; otherwise the
chunks are concatenated and re-indexed (`reset_index(drop=True)` gives the
fresh contiguous index recorded here). -/
def bucketize (l : List (List Rec)) : Option (List (Nat × Rec)) :=
  if l.isEmpty then none else some l.flatten.enum

def names5 : List String :=
  ["all_courses", "new_courses", "failed_courses", "modified_courses", "skipped_courses"]

/-- `get_course_details_all` (lines 267-346): the output dict plus the trace
of per-item effects. -/
def getCourseDetailsAll (rows : List CRow) (existing : Option (List ERow))
    (site : String → TeePage) :
    List (String × Option (List (Nat × Rec))) × List Ev :=
  let st := runAgg rows existing site
  ([("all_courses", bucketize st.allC),
    ("new_courses", bucketize st.newC),
    ("failed_courses", bucketize st.failedC),
    ("modified_courses", bucketize st.modifiedC),
    ("skipped_courses", bucketize st.skippedC)], st.evs)

/-! ### Snapshot store (`store_course_details` / `restore_course_details`,
lines 360-458) -/

/-- What one stored csv file holds: `store_course_details` writes either an
empty placeholder (a `None` bucket) or the serialised DataFrame.  The csv
codec is modelled as faithful on the record collections it is given;
`pd.read_csv` of an empty file raises `EmptyDataError` and of a missing file
raises `FileNotFoundError`, both caught by the restore loop. -/
inductive CsvFile
  | emptyFile
  | csv (rows : List (Nat × Rec))
deriving DecidableEq, Repr

/-- The filesystem: file path to contents. -/
abbrev FS := String → Option CsvFile

def osJoin (folder file : String) : String := folder ++ "/" ++ file

def fsWrite (fs : FS) (name : String) (f : CsvFile) : FS :=
  fun m => if m == name then some f else fs m

/-- `'{kind}_course_details_{date}.csv'`. -/
def detailFile (kind date : String) : String := kind ++ "_course_details_" ++ date ++ ".csv"

/-- The `fmap` of lines 422-426 (also the filename list of lines 376-380),
keyed by bucket name. -/
def bucketKind (key : String) : Option String :=
  if key == "all_courses" then some "all"
  else if key == "new_courses" then some "new"
  else if key == "failed_courses" then some "failed"
  else if key == "modified_courses" then some "modified"
  else if key == "skipped_courses" then some "skipped"
  else none

/-- The bucketed result set passed to the store, as the dict it is. -/
abbrev Buckets := List (String × Option (List (Nat × Rec)))

def blook (b : Buckets) (k : String) : Option (Option (List (Nat × Rec))) :=
  (b.find? (fun p => p.1 == k)).map Prod.snd

/-- Lines 387-392: a `None` bucket is written as an empty file, a DataFrame
as its csv. -/
def encodeBucket : Option (List (Nat × Rec)) → CsvFile
  | none => .emptyFile
  | some df => .csv df

/-- `store_course_details` (lines 360-394): one file per bucket, written in
the fixed key order; `dfs[key]` raises `KeyError` when a key is missing.
`today` is `get_date()` at call time. -/
def storeCourseDetails (dfs : Buckets) (folder today : String) (fs : FS) : Except PyErr FS :=
  names5.foldl (fun acc key =>
    match acc with
    | .error e => .error e
    | .ok f =>
      match blook dfs key with
      | none => .error .keyError
      | some v =>
        .ok (fsWrite f (osJoin folder (detailFile ((bucketKind key).getD "") today))
          (encodeBucket v))) (.ok fs)

/-- The `data` argument of `restore_course_details` (`None`, a single string,
or a list of bucket names). -/
inductive DataArg
  | noneA
  | strA (s : String)
  | listA (l : List String)
deriving DecidableEq, Repr

/-- The `dates` argument (`None`, one date for all files, or one per file). -/
inductive DatesArg
  | noneD
  | strD (s : String)
  | listD (l : List String)
deriving DecidableEq, Repr

/-- `pd.read_csv` with the blanket `except` of lines 452-455: a missing file
(`FileNotFoundError`) or an empty placeholder (`EmptyDataError`) yields
`None`; otherwise the stored frame. -/
def readFile : Option CsvFile → Option (List (Nat × Rec))
  | none => none
  | some .emptyFile => none
  | some (.csv d) => some d

/-- The read loop of lines 449-456: `fmap[key]` raises `KeyError` before the
file is opened.  Also returns the list of file paths actually read. -/
def readBuckets (folder : String) (fs : FS) :
    List (String × String) → Except PyErr Buckets × List String
  | [] => (.ok [], [])
  | (k, date) :: rest =>
    match bucketKind k with
    | none => (.error .keyError, [])
    | some kind =>
      match readBuckets folder fs rest with
      | (.error e, rs) => (.error e, osJoin folder (detailFile kind date) :: rs)
      | (.ok bs, rs) =>
        (.ok ((k, readFile (fs (osJoin folder (detailFile kind date)))) :: bs),
         osJoin folder (detailFile kind date) :: rs)

/-- `restore_course_details` (lines 397-458).  `today` models `get_date()`;
`fmt` models `pd.to_datetime(d).strftime('%Y%m%d')`.  The second component is
the list of file paths read (the I/O the call performed). -/
def restoreCourseDetails (data : DataArg) (dates : DatesArg) (folder : String)
    (fs : FS) (today : String) (fmt : String → String) :
    Except PyErr Buckets × List String :=
  let dataRes : Except PyErr (List String) :=
    match data with
    | .noneA => .ok names5
    | .strA s => .ok [s]
    | .listA l =>
      if l.any (fun d => !(names5.any (fun k => k == d))) then .error .indexError else .ok l
  match dataRes with
  | .error e => (.error e, [])
  | .ok keys =>
    let datesRes : Except PyErr (List String) :=
      match dates with
      | .noneD => .ok (keys.map (fun _ => today))
      | .strD s => .ok (keys.map (fun _ => fmt s))
      | .listD l => if l.length = keys.length then .ok (l.map fmt) else .error .lookupError
    match datesRes with
    | .error e => (.error e, [])
    | .ok ds => readBuckets folder fs (keys.zip ds)

/-! ### `get_states` (lines 16-46) -/

/-- An element of the returned state list: a bare name or a (name, id) pair,
per the `returns` selector. -/
inductive StateItem
  | nameOnly (t : String)
  | withId (t v : String)
deriving DecidableEq, Repr

/-- I/O performed by `get_states`: the initial page request of line 31. -/
inductive GEv
  | fetchPage
deriving DecidableEq, Repr

/-- The option loop of lines 34-45: `(Select)` entries are skipped; an
unrecognized `returns` value raises `NameError` at the first surviving
option. -/
def statesLoop (returns : String) : List (String × String) → Except PyErr (List StateItem)
  | [] => .ok []
  | (t, v) :: rest =>
    if t == "(Select)" then statesLoop returns rest
    else if returns == "state_name_only" then
      match statesLoop returns rest with
      | .error e => .error e
      | .ok l => .ok (.nameOnly t :: l)
    else if returns == "state_name_and_id" then
      match statesLoop returns rest with
      | .error e => .error e
      | .ok l => .ok (.withId t v :: l)
    else .error .nameError

/-- `get_states` (lines 16-46): the page is fetched first (line 31), then the
dropdown options are folded.  `opts` is the `(text, value)` list of the
`ddState` options. -/
def getStates (opts : List (String × String)) (returns : String) :
    Except PyErr (List StateItem) × List GEv :=
  (statesLoop returns opts, [GEv.fetchPage])

/-! ## Theorems

The claim-side statements below are phrased over the embedded definitions.
The three reconciliation criteria are first stated independently, in the
spec's own terms. -/

/-- Spec §4.2 `url_match`: some archive record has the record's url. -/
def urlCrit (arch : List ARow) (base u : String) : Bool :=
  arch.any (fun a => a.url == base ++ u)

/-- Spec §4.2 `id_match`: some archive record has the record's course_id. -/
def cidCrit (arch : List ARow) (c : String) : Bool :=
  arch.any (fun a => a.course_id == c)

/-- Spec §4.2 `city_match`: all archive records sharing the course_id have the
record's city; forced false when `id_match` is false. -/
def cityCrit (arch : List ARow) (c : String) (cv : Option String) : Bool :=
  cidCrit arch c && (arch.filter (fun a => a.course_id == c)).all (fun a => cv == some a.city)

/-- C1: for every extracted record (one whose link parses, so that its own
`url`/`course_id` are the ones compared) and archive: all three criteria true
⇒ the record is skipped with no signal; some but not all true ⇒ kept with a
warning naming the course_id; none true ⇒ kept with an informational signal
naming it; and with no archive supplied the record is unconditionally kept
with no signal. -/
theorem c1_reconciler_decision_table
    (arch : List ARow) (base now : String) (hdrs : List String)
    (st : LoopSt) (r : ListingRow) (h c : String) (d1 : Dict) (cv : Option String)
    (hErr : st.err = none)
    (hp : parseRow r = .okParse h c)
    (hf : fillTds hdrs [("url", some (base ++ h)), ("course_id", some c)] r.tds 0 = .ok d1)
    (hcity : dget (dinsert d1 "last_updated" (some now)) "city" = some cv) :
    ((urlCrit arch base h && cidCrit arch c && cityCrit arch c cv) = true →
      step (some arch) base now hdrs st r =
        { urlExt := some h, courseId := some c, courses := st.courses, sigs := st.sigs,
          err := none })
    ∧ ((urlCrit arch base h || cidCrit arch c || cityCrit arch c cv) = true →
       (urlCrit arch base h && cidCrit arch c && cityCrit arch c cv) = false →
      step (some arch) base now hdrs st r =
        { urlExt := some h, courseId := some c,
          courses := st.courses ++ [dinsert d1 "last_updated" (some now)],
          sigs := st.sigs ++ [.warnModified c], err := none })
    ∧ ((urlCrit arch base h || cidCrit arch c || cityCrit arch c cv) = false →
      step (some arch) base now hdrs st r =
        { urlExt := some h, courseId := some c,
          courses := st.courses ++ [dinsert d1 "last_updated" (some now)],
          sigs := st.sigs ++ [.infoNew c], err := none })
    ∧ (step none base now hdrs st r =
        { urlExt := some h, courseId := some c,
          courses := st.courses ++ [dinsert d1 "last_updated" (some now)],
          sigs := st.sigs, err := none }) := by
  have hstep : ∀ a, step a base now hdrs st r =
      (match fillTds hdrs [("url", some (base ++ h)), ("course_id", some c)] r.tds 0 with
        | .error e =>
          { urlExt := some h, courseId := some c, courses := st.courses, sigs := st.sigs,
            err := some e }
        | .ok d1 =>
          match a with
          | none =>
            { urlExt := some h, courseId := some c,
              courses := st.courses ++ [dinsert d1 "last_updated" (some now)],
              sigs := st.sigs, err := none }
          | some arch =>
            applyDecision st (some h) (some c) (dinsert d1 "last_updated" (some now))
              (archDecision arch base h c (dinsert d1 "last_updated" (some now)))) := by
    intro a
    rw [step]
    simp only [hErr, Option.isSome_none, Bool.false_eq_true, if_false, hp, course0Of,
      urlExtAfter, courseIdAfter]
  simp only [hf] at hstep
  refine ⟨?_, ?_, ?_, ?_⟩
  · intro hall
    rw [hstep (some arch)]
    unfold archDecision
    rcases Bool.and_eq_true_iff.mp hall with ⟨hac, hcy⟩
    rcases Bool.and_eq_true_iff.mp hac with ⟨hu, hc⟩
    unfold cityCrit at hcy
    rcases Bool.and_eq_true_iff.mp hcy with ⟨-, hally⟩
    simp only [urlCrit] at hu
    simp only [cidCrit] at hc
    simp only [hu, hc, hcity, hally, if_true, applyDecision]
    simp
  · intro hsome hnall
    rw [hstep (some arch)]
    unfold archDecision
    simp only [urlCrit, cidCrit, cityCrit] at hsome hnall
    rcases hu : arch.any (fun a => a.url == base ++ h) <;>
      rcases hc : arch.any (fun a => a.course_id == c) <;>
        rcases ha : (arch.filter (fun a => a.course_id == c)).all (fun a => cv == some a.city) <;>
          simp only [hu, hc, ha, cidCrit, Bool.and_false, Bool.and_true, Bool.false_and,
            Bool.true_and, Bool.or_false, Bool.or_true, Bool.false_or, Bool.true_or,
            if_true, if_false, hcity, classifyB, Bool.toNat_true, Bool.toNat_false,
            applyDecision] at hsome hnall ⊢ <;>
          first
            | exact absurd hsome (by decide)
            | exact absurd hnall (by decide)
            | simp
  · intro hnone
    rw [hstep (some arch)]
    unfold archDecision
    simp only [urlCrit, cidCrit, cityCrit] at hnone
    rcases Bool.or_eq_false_iff.mp hnone with ⟨huc, hcy⟩
    rcases Bool.or_eq_false_iff.mp huc with ⟨hu, hc⟩
    simp only [hu, hc, hcity, if_false, Bool.false_and, applyDecision, classifyB,
      Bool.toNat_false]
    simp
  · rw [hstep none]

def c1arch : List ARow := [⟨"b/x?CourseID=1", "1", "denver"⟩]

def c1row : ListingRow := ⟨some "x?CourseID=1", ["denver"]⟩

def c1hdrs : List String := ["url", "course_id", "last_updated", "city"]

/-- C1 witness: a concrete all-three-criteria-true run is skipped with no
signal. -/
theorem c1_witness :
    step (some c1arch) "b/" "t" c1hdrs initSt c1row =
      { urlExt := some "x?CourseID=1", courseId := some "1", courses := [], sigs := [],
        err := none } := by
  have hth := c1_reconciler_decision_table c1arch "b/" "t" c1hdrs initSt c1row
      "x?CourseID=1" "1"
      [("url", some "b/x?CourseID=1"), ("course_id", some "1"), ("city", some "denver")]
      (some "denver") rfl (by decide) (by rfl) (by rfl)
  exact hth.1 (by decide)

/-! ### Per-item routing of the detail aggregator (spec §4.4) -/

/-- What one listing record contributes to the `all` bucket: its carried-over
existing rows when excluded, else the fetched detail rows on success. -/
def contribAllC (existing : Option (List ERow)) (site : String → TeePage) (r : CRow) :
    List (List Rec) :=
  if isExcluded existing r then [carried existing r]
  else match fetchOutcome site r with
    | .ok (some df) => [teeChunk df]
    | _ => []

/-- Contribution to `new`: the fetched rows on success only. -/
def contribNewC (existing : Option (List ERow)) (site : String → TeePage) (r : CRow) :
    List (List Rec) :=
  if isExcluded existing r then []
  else match fetchOutcome site r with
    | .ok (some df) => [teeChunk df]
    | _ => []

/-- Contribution to `failed`: the original listing record when extraction
raises. -/
def contribFailedC (existing : Option (List ERow)) (site : String → TeePage) (r : CRow) :
    List (List Rec) :=
  if isExcluded existing r then []
  else match fetchOutcome site r with
    | .error _ => [[Rec.fromListing r]]
    | .ok _ => []

/-- Contribution to `skipped`: the listing record when excluded or when the
page has no tee table. -/
def contribSkippedC (existing : Option (List ERow)) (site : String → TeePage) (r : CRow) :
    List (List Rec) :=
  if isExcluded existing r then [[Rec.fromListing r]]
  else match fetchOutcome site r with
    | .ok none => [[Rec.fromListing r]]
    | _ => []

/-- Per-item effects: no request at all for an excluded record; a request for
every other record; the pacing delay only when the extraction did not raise. -/
def contribEvs (existing : Option (List ERow)) (site : String → TeePage) (r : CRow) :
    List Ev :=
  if isExcluded existing r then []
  else match fetchOutcome site r with
    | .error _ => [.fetch r.url]
    | .ok _ => [.fetch r.url, .pause]

theorem astep_eq (existing : Option (List ERow)) (site : String → TeePage)
    (st : AggSt) (r : CRow) :
    astep existing site st r =
      ⟨st.allC ++ contribAllC existing site r,
       st.newC ++ contribNewC existing site r,
       st.failedC ++ contribFailedC existing site r,
       st.modifiedC,
       st.skippedC ++ contribSkippedC existing site r,
       st.evs ++ contribEvs existing site r⟩ := by
  unfold astep contribAllC contribNewC contribFailedC contribSkippedC contribEvs
  cases hx : isExcluded existing r
  · cases ho : fetchOutcome site r with
    | error e => simp [hx, ho]
    | ok v => cases v <;> simp [hx, ho]
  · simp [hx]

theorem foldAgg (existing : Option (List ERow)) (site : String → TeePage)
    (rows : List CRow) (st : AggSt) :
    rows.foldl (astep existing site) st =
      ⟨st.allC ++ (rows.map (contribAllC existing site)).flatten,
       st.newC ++ (rows.map (contribNewC existing site)).flatten,
       st.failedC ++ (rows.map (contribFailedC existing site)).flatten,
       st.modifiedC,
       st.skippedC ++ (rows.map (contribSkippedC existing site)).flatten,
       st.evs ++ (rows.map (contribEvs existing site)).flatten⟩ := by
  induction rows generalizing st with
  | nil => simp
  | cons r rs ih =>
    rw [List.foldl_cons, astep_eq, ih]
    simp [List.append_assoc]

theorem runAgg_eq (rows : List CRow) (existing : Option (List ERow))
    (site : String → TeePage) :
    runAgg rows existing site =
      ⟨(rows.map (contribAllC existing site)).flatten,
       (rows.map (contribNewC existing site)).flatten,
       (rows.map (contribFailedC existing site)).flatten,
       [],
       (rows.map (contribSkippedC existing site)).flatten,
       (rows.map (contribEvs existing site)).flatten⟩ := by
  rw [runAgg, foldAgg]
  rfl

/-- C2: the aggregator routes each listing record, in input order, as the
spec's §4.4 case analysis says: excluded records go to `skipped` with their
existing detail rows re-emitted into `all` and no request performed; a raising
extraction routes the original record to `failed` (nothing added to `all`); a
table-less page routes it to `skipped`; extracted records are appended to both
`all` and `new`. -/
theorem c2_detail_routing (rows : List CRow) (existing : Option (List ERow))
    (site : String → TeePage) :
    (runAgg rows existing site).allC = (rows.map (contribAllC existing site)).flatten
    ∧ (runAgg rows existing site).newC = (rows.map (contribNewC existing site)).flatten
    ∧ (runAgg rows existing site).failedC = (rows.map (contribFailedC existing site)).flatten
    ∧ (runAgg rows existing site).skippedC = (rows.map (contribSkippedC existing site)).flatten
    ∧ (runAgg rows existing site).evs = (rows.map (contribEvs existing site)).flatten
    ∧ (∀ r : CRow, isExcluded existing r = true → contribEvs existing site r = []) := by
  rw [runAgg_eq]
  refine ⟨rfl, rfl, rfl, rfl, rfl, ?_⟩
  intro r hx
  simp [contribEvs, hx]

/-- C2 witness: for a concrete excluded record no request is performed. -/
theorem c2_witness :
    contribEvs (some [⟨"9", ["z"]⟩]) (fun _ => TeePage.noTable) ⟨"9", "u"⟩ = [] := by
  exact (c2_detail_routing [⟨"9", "u"⟩] (some [⟨"9", ["z"]⟩])
      (fun _ => TeePage.noTable)).2.2.2.2.2 ⟨"9", "u"⟩ (by decide)

/-- C3 counterexample: the claim says a bucket is never an empty collection
(absent stands in for "zero records").  But a detail page whose tee table has
only a header row (with the `''` and `ch` labels present) extracts as a
present-but-empty DataFrame: `get_course_details` returns an empty frame, the
aggregator appends it, and the `all` bucket comes out as an empty collection
rather than the absent marker. -/
theorem c3_counterexample :
    ¬ (∀ p ∈ (getCourseDetailsAll [⟨"9", "u"⟩] none (fun _ => TeePage.table [["", "ch"]])).1,
        p.2 ≠ some []) := by
  decide

/-- C3 as amended: the result has exactly the five bucket keys in order; the
modified bucket is never populated (its accumulator stays empty, so it is
always the absent marker); each bucket is the absent marker exactly when no
record collection was appended to it, and otherwise is the concatenation of
the appended collections under a fresh contiguous index — which can be an
empty collection when every appended extraction result had zero rows. -/
theorem c3_bucket_structure (rows : List CRow) (existing : Option (List ERow))
    (site : String → TeePage) :
    (getCourseDetailsAll rows existing site).1 =
      [("all_courses", bucketize (runAgg rows existing site).allC),
       ("new_courses", bucketize (runAgg rows existing site).newC),
       ("failed_courses", bucketize (runAgg rows existing site).failedC),
       ("modified_courses", bucketize (runAgg rows existing site).modifiedC),
       ("skipped_courses", bucketize (runAgg rows existing site).skippedC)]
    ∧ (getCourseDetailsAll rows existing site).1.map Prod.fst = names5
    ∧ (runAgg rows existing site).modifiedC = []
    ∧ bucketize (runAgg rows existing site).modifiedC = none
    ∧ ∀ l : List (List Rec),
        (bucketize l = none ↔ l = []) ∧ (l = [] ∨ bucketize l = some l.flatten.enum) := by
  refine ⟨rfl, rfl, ?_, ?_, ?_⟩
  · rw [runAgg_eq]
  · rw [runAgg_eq]
    rfl
  · intro l
    constructor
    · unfold bucketize
      rcases l with _ | ⟨c, cs⟩ <;> simp
    · rcases l with _ | ⟨c, cs⟩
      · exact Or.inl rfl
      · right
        unfold bucketize
        simp

/-- C4 counterexample: the claim says the pacing delay occurs after every
per-item attempt.  A single excluded record is an attempt (it is routed to
`skipped` and its data carried over) but its loop iteration hits `continue`
before `time.sleep`, so no delay occurs at all. -/
theorem c4_counterexample :
    ¬ ((getCourseDetailsAll [⟨"9", "u"⟩] (some [⟨"9", ["z"]⟩])
          (fun _ => TeePage.noTable)).2.count Ev.pause
        = ([⟨"9", "u"⟩] : List CRow).length) := by
  decide

/-- Classifies a detail-extraction outcome as a raised exception. -/
def isFetchErrB : Except PyErr (Option DDF) → Bool
  | .error _ => true
  | .ok _ => false

/-- C4 as amended: the pacing delay occurs exactly after the per-item attempts
that reach extraction and do not raise (success or no-table skip); excluded
records and raising extractions `continue` past the delay. -/
theorem c4_pause_placement (rows : List CRow) (existing : Option (List ERow))
    (site : String → TeePage) :
    (runAgg rows existing site).evs.count Ev.pause =
      (rows.filter (fun r =>
        !(isExcluded existing r) && !(isFetchErrB (fetchOutcome site r)))).length := by
  have key : ∀ rs : List CRow,
      ((rs.map (contribEvs existing site)).flatten).count Ev.pause =
        (rs.filter (fun r =>
          !(isExcluded existing r) && !(isFetchErrB (fetchOutcome site r)))).length := by
    intro rs
    induction rs with
    | nil => rfl
    | cons r rs ih =>
      simp only [List.map_cons, List.flatten_cons, List.count_append, List.filter_cons]
      cases hx : isExcluded existing r
      · cases ho : fetchOutcome site r with
        | error e => simp [contribEvs, hx, ho, isFetchErrB, ih]
        | ok v =>
          simp [contribEvs, hx, ho, isFetchErrB, ih, List.count_cons, Nat.add_comm]
      · simp [contribEvs, hx, ih]
  rw [runAgg_eq]
  exact key rows

/-! ### Column placement in the listing result (C5) -/

theorem dkeys_dinsert_self (d : Dict) (k : String) (v : Option String) :
    k ∈ dkeys (dinsert d k v) := by
  unfold dinsert
  by_cases hmem : (dkeys d).any (fun s => s == k) = true
  · rw [if_pos hmem]
    rcases List.any_eq_true.mp hmem with ⟨s, hs, hsk⟩
    have hsk' : s = k := by simpa using hsk
    rcases List.mem_map.mp hs with ⟨p, hp, hp1⟩
    refine List.mem_map.mpr ⟨(k, v), List.mem_map.mpr ⟨p, hp, ?_⟩, rfl⟩
    have hb : (p.1 == k) = true := by
      rw [hp1, hsk']
      simp
    simp [hb]
  · rw [if_neg hmem]
    simp [dkeys]

theorem applyDecision_courses (st : LoopSt) (uE cI : Option String) (course : Dict)
    (d : Except PyErr (Bool × Option Sig)) :
    (applyDecision st uE cI course d).courses = st.courses ∨
    (applyDecision st uE cI course d).courses = st.courses ++ [course] := by
  unfold applyDecision
  rcases d with e | ⟨app, sg⟩
  · exact Or.inl rfl
  · cases app
    · simp
    · simp

theorem step_courses_cases (archive : Option (List ARow)) (base now : String)
    (hdrs : List String) (st : LoopSt) (r : ListingRow) :
    (step archive base now hdrs st r).courses = st.courses ∨
    ∃ d1, (step archive base now hdrs st r).courses
        = st.courses ++ [dinsert d1 "last_updated" (some now)] := by
  unfold step
  split
  · exact Or.inl rfl
  · split
    · exact Or.inl rfl
    · split
      · exact Or.inr ⟨_, rfl⟩
      · split
        · exact Or.inl rfl
        · split
          · exact Or.inl rfl
          · rcases applyDecision_courses st _ _ _ _ with hl | hr
            · exact Or.inl hl
            · exact Or.inr ⟨_, hr⟩

theorem fold_courses_lastupd (archive : Option (List ARow)) (base now : String)
    (hdrs : List String) (rows : List ListingRow) (st : LoopSt)
    (h0 : ∀ d ∈ st.courses, "last_updated" ∈ dkeys d) :
    ∀ d ∈ (rows.foldl (step archive base now hdrs) st).courses, "last_updated" ∈ dkeys d := by
  induction rows generalizing st with
  | nil => exact h0
  | cons r rs ih =>
    rw [List.foldl_cons]
    refine ih (step archive base now hdrs st r) ?_
    rcases step_courses_cases archive base now hdrs st r with hsame | ⟨d1, happ⟩
    · rw [hsame]
      exact h0
    · rw [happ]
      intro d hd
      rcases List.mem_append.mp hd with hold | hnew
      · exact h0 d hold
      · rcases List.mem_singleton.mp hnew with rfl
        exact dkeys_dinsert_self d1 "last_updated" (some now)

theorem dedupInto_cons (acc : List String) (k : String) (ks : List String) :
    dedupInto acc (k :: ks)
      = dedupInto (if acc.any (fun s => s == k) then acc else acc ++ [k]) ks := rfl

theorem mem_dedupInto (a : String) (ks : List String) :
    ∀ acc, a ∈ dedupInto acc ks ↔ a ∈ acc ∨ a ∈ ks := by
  induction ks with
  | nil => intro acc; simp [dedupInto]
  | cons k ks ih =>
    intro acc
    rw [dedupInto_cons]
    by_cases hk : acc.any (fun s => s == k) = true
    · rw [if_pos hk, ih]
      rcases List.any_eq_true.mp hk with ⟨s, hs, hsk⟩
      have hsk' : s = k := by simpa using hsk
      subst hsk'
      simp only [List.mem_cons]
      constructor
      · rintro (h | h)
        · exact Or.inl h
        · exact Or.inr (Or.inr h)
      · rintro (h | rfl | h)
        · exact Or.inl h
        · exact Or.inl hs
        · exact Or.inr h
    · rw [if_neg hk, ih]
      simp only [List.mem_append, List.mem_singleton, List.mem_cons]
      tauto

theorem mem_dedupKeys (ds : List Dict) (a : String) :
    ∀ acc, (a ∈ acc ∨ ∃ d ∈ ds, a ∈ dkeys d) →
      a ∈ ds.foldl (fun acc d => dedupInto acc (dkeys d)) acc := by
  induction ds with
  | nil =>
    intro acc h
    rcases h with h | ⟨d, hd, -⟩
    · exact h
    · exact absurd hd (List.not_mem_nil d)
  | cons d ds ih =>
    intro acc h
    rw [List.foldl_cons]
    refine ih (dedupInto acc (dkeys d)) ?_
    rcases h with h | ⟨d', hd', hk⟩
    · exact Or.inl ((mem_dedupInto a (dkeys d) acc).mpr (Or.inl h))
    · rcases List.mem_cons.mp hd' with rfl | hd'
      · exact Or.inl ((mem_dedupInto a (dkeys d') acc).mpr (Or.inr hk))
      · exact Or.inr ⟨d', hd', hk⟩

/-- The concrete result of extracting a two-row Oregon-style listing with a
single `City` column and no archive (both rows share `CourseID=1`). -/
def c5pdf : PDF :=
  ⟨["course_id", "city", "url", "last_updated"],
   [[("url", some "b/L1?CourseID=1"), ("course_id", some "1"), ("city", some "denver"),
     ("last_updated", some "t")],
    [("url", some "b/Z?CourseID=1"), ("course_id", some "1"), ("city", some "tacoma"),
     ("last_updated", some "t")]]⟩

/-- C5 counterexample: in this concrete non-empty extraction the trailing
column is `last_updated` (not `url`, which sits second-to-last), the leading
column is `course_id` (not `last_updated`), and the batch carries a duplicated
`course_id` — the `pop`-then-assign at lines 169-170 moves each popped column
to the end, and nothing deduplicates ids. -/
theorem c5_counterexample :
    (getCoursesByState (some ⟨["City"],
        [⟨some "L1?CourseID=1", ["denver"]⟩, ⟨some "Z?CourseID=1", ["tacoma"]⟩]⟩)
        none "b/" "t").1 = .ok (some c5pdf)
    ∧ ¬ (c5pdf.cols.getLast? = some "url" ∧ c5pdf.cols.head? = some "last_updated"
         ∧ (c5pdf.rows.filterMap (fun d => (dget d "course_id").bind id)).Nodup) := by
  exact ⟨rfl, by decide⟩

/-- C5 as amended: every non-empty listing extraction result ends with `url`
as its second-to-last column and `last_updated` as its trailing column
(`course_id` uniqueness is not enforced by the extractor). -/
theorem c5_trailing_columns (page : ListingPage) (archive : Option (List ARow))
    (base now : String) (p : PDF)
    (hres : (getCoursesByState (some page) archive base now).1 = .ok (some p))
    (hrows : p.rows ≠ []) :
    ∃ l, p.cols = l ++ ["url", "last_updated"] := by
  simp only [getCoursesByState] at hres
  set fin := page.rows.foldl (step archive base now (listingHeaders page)) initSt with hfin
  rcases herr : fin.err with _ | e
  · simp only [herr] at hres
    by_cases hemp : fin.courses.isEmpty
    · rw [if_pos hemp] at hres
      have hp : p = ⟨listingHeaders page, []⟩ :=
        (Option.some.inj (Except.ok.inj hres)).symm
      rw [hp] at hrows
      exact absurd rfl hrows
    · rw [if_neg hemp] at hres
      have hp : p = ⟨((dedupKeys fin.courses).erase "url" ++ ["url"]).erase "last_updated"
          ++ ["last_updated"], fin.courses⟩ :=
        (Option.some.inj (Except.ok.inj hres)).symm
      have hne : fin.courses ≠ [] := by
        intro hnil
        rw [hnil] at hemp
        exact hemp rfl
      rcases List.exists_mem_of_ne_nil fin.courses hne with ⟨d, hd⟩
      have hlu_d : "last_updated" ∈ dkeys d := by
        refine fold_courses_lastupd archive base now (listingHeaders page) page.rows initSt
            ?_ d ?_
        · intro d' hd'
          exact absurd hd' (List.not_mem_nil d')
        · rw [← hfin]
          exact hd
      have hlu0 : "last_updated" ∈ dedupKeys fin.courses := by
        unfold dedupKeys
        exact mem_dedupKeys fin.courses "last_updated" [] (Or.inr ⟨d, hd, hlu_d⟩)
      have hluer : "last_updated" ∈ (dedupKeys fin.courses).erase "url" :=
        (List.mem_erase_of_ne (by decide)).mpr hlu0
      refine ⟨((dedupKeys fin.courses).erase "url").erase "last_updated", ?_⟩
      have hcols := congrArg PDF.cols hp
      simp only at hcols
      rw [hcols, List.erase_append_left _ hluer, List.append_assoc]
      rfl
  · simp only [herr] at hres
    exact absurd hres (by simp)

/-- C5 witness: the amended statement holds at the concrete two-row run. -/
theorem c5_witness : ∃ l, c5pdf.cols = l ++ ["url", "last_updated"] := by
  exact c5_trailing_columns
      ⟨["City"], [⟨some "L1?CourseID=1", ["denver"]⟩, ⟨some "Z?CourseID=1", ["tacoma"]⟩]⟩
      none "b/" "t" c5pdf rfl (by decide)

/-! ### Stale locals in the archive comparison (C10) -/

/-- The url source the claim describes for the comparison: the row's own link
when parsed, otherwise the prior row's value — i.e. never the current row's
href when the `CourseID` match failed. -/
def urlClaimSrc (st : LoopSt) (pr : ParseRes) : Option String :=
  match pr with
  | .okParse h _ => some h
  | _ => st.urlExt

/-- The loop step exactly as C10 describes it: identical to `step` except
that for a row whose link fails to parse the comparison reuses the prior
row's `url_ext` for the url criterion (the code instead uses the current
row's href when only the `CourseID` match failed). -/
def stepClaimed (archive : Option (List ARow)) (base now : String) (hdrs : List String)
    (st : LoopSt) (r : ListingRow) : LoopSt :=
  if st.err.isSome then st else
  match fillTds hdrs (course0Of base (parseRow r)) r.tds 0 with
  | .error e =>
    { urlExt := urlExtAfter st (parseRow r), courseId := courseIdAfter st (parseRow r),
      courses := st.courses, sigs := st.sigs, err := some e }
  | .ok d1 =>
    match archive with
    | none =>
      { urlExt := urlExtAfter st (parseRow r), courseId := courseIdAfter st (parseRow r),
        courses := st.courses ++ [dinsert d1 "last_updated" (some now)], sigs := st.sigs,
        err := none }
    | some arch =>
      match urlClaimSrc st (parseRow r) with
      | none =>
        { urlExt := urlExtAfter st (parseRow r), courseId := courseIdAfter st (parseRow r),
          courses := st.courses, sigs := st.sigs, err := some .nameError }
      | some u =>
        match courseIdAfter st (parseRow r) with
        | none =>
          { urlExt := urlExtAfter st (parseRow r), courseId := courseIdAfter st (parseRow r),
            courses := st.courses, sigs := st.sigs, err := some .nameError }
        | some c =>
          applyDecision st (urlExtAfter st (parseRow r)) (courseIdAfter st (parseRow r))
            (dinsert d1 "last_updated" (some now))
            (archDecision arch base u c (dinsert d1 "last_updated" (some now)))

/-- `get_courses_by_state` under the claim's comparison semantics. -/
def getCoursesByStateClaimed (page : Option ListingPage) (archive : Option (List ARow))
    (base now : String) : Except PyErr (Option PDF) × List Sig :=
  match page with
  | none => (.ok none, [])
  | some pg =>
    let hdrs := listingHeaders pg
    let fin := pg.rows.foldl (stepClaimed archive base now hdrs) initSt
    match fin.err with
    | some e => (.error e, fin.sigs)
    | none =>
      if fin.courses.isEmpty then
        (.ok (some ⟨hdrs, []⟩), fin.sigs ++ [.infoEmpty])
      else
        let cols0 := dedupKeys fin.courses
        let cols1 := cols0.erase "url" ++ ["url"]
        let cols2 := cols1.erase "last_updated" ++ ["last_updated"]
        (.ok (some ⟨cols2, fin.courses⟩), fin.sigs)

def c10page : ListingPage :=
  ⟨["City"], [⟨some "L1?CourseID=1", ["x"]⟩, ⟨some "h2", ["x"]⟩]⟩

def c10arch : List ARow := [⟨"b/h2", "1", "x"⟩]

/-- The run as the code computes it: row 2's comparison uses the CURRENT
href (`b/h2` is in the archive), all three criteria hold, and row 2 is
silently skipped. -/
def c10pdfActual : PDF :=
  ⟨["course_id", "city", "url", "last_updated"],
   [[("url", some "b/L1?CourseID=1"), ("course_id", some "1"), ("city", some "x"),
     ("last_updated", some "t")]]⟩

/-- The run as the claim describes it: row 2's comparison would reuse row 1's
url, the url criterion would fail, and row 2 would be kept with a warning. -/
def c10pdfClaimed : PDF :=
  ⟨["course_id", "city", "url", "last_updated"],
   [[("url", some "b/L1?CourseID=1"), ("course_id", some "1"), ("city", some "x"),
     ("last_updated", some "t")],
    [("url", none), ("course_id", none), ("city", some "x"),
     ("last_updated", some "t")]]⟩

/-- C10 counterexample: for a row whose anchor has no `CourseID` match after a
successful row, the code does NOT reuse the prior row's url in the comparison:
it uses the current row's freshly assigned `url_ext` (only `course_id` is
stale).  On this input the code skips row 2 (its current href is archived)
while the claim's semantics keeps it with a warning. -/
theorem c10_counterexample :
    (getCoursesByState (some c10page) (some c10arch) "b/" "t").1 = .ok (some c10pdfActual)
    ∧ (getCoursesByStateClaimed (some c10page) (some c10arch) "b/" "t").1
        = .ok (some c10pdfClaimed)
    ∧ c10pdfActual ≠ c10pdfClaimed := by
  exact ⟨rfl, rfl, by decide⟩

/-- C10 as amended: when an archive is supplied and a body row's link fails to
parse, the comparison still evaluates against the live locals: a no-anchor row
uses the prior `url_ext` and `course_id` (raising `NameError` when the needed
one is unbound, which is the case on such a first row); a row whose anchor
lacks a `CourseID` match uses the CURRENT row's href for the url criterion and
the stale `course_id` for the id criterion (raising `NameError` when that is
unbound). -/
theorem c10_stale_names (arch : List ARow) (base now : String) (hdrs : List String)
    (st : LoopSt) (r : ListingRow) (d1 : Dict)
    (hErr : st.err = none)
    (hf : fillTds hdrs [("url", none), ("course_id", none)] r.tds 0 = .ok d1) :
    ((parseRow r = .noAnchor ∧ st.urlExt = none) →
      step (some arch) base now hdrs st r = { st with err := some PyErr.nameError })
    ∧ (∀ u, parseRow r = .noAnchor → st.urlExt = some u → st.courseId = none →
      step (some arch) base now hdrs st r = { st with err := some PyErr.nameError })
    ∧ (∀ u c, parseRow r = .noAnchor → st.urlExt = some u → st.courseId = some c →
      step (some arch) base now hdrs st r =
        applyDecision st (some u) (some c) (dinsert d1 "last_updated" (some now))
          (archDecision arch base u c (dinsert d1 "last_updated" (some now))))
    ∧ (∀ h, parseRow r = .anchorNoId h → st.courseId = none →
      step (some arch) base now hdrs st r =
        { st with urlExt := some h, err := some PyErr.nameError })
    ∧ (∀ h c, parseRow r = .anchorNoId h → st.courseId = some c →
      step (some arch) base now hdrs st r =
        applyDecision { st with urlExt := some h } (some h) (some c)
          (dinsert d1 "last_updated" (some now))
          (archDecision arch base h c (dinsert d1 "last_updated" (some now)))) := by
  refine ⟨?_, ?_, ?_, ?_, ?_⟩
  · rintro ⟨hp, hu⟩
    rw [step]
    simp only [hErr, Option.isSome_none, Bool.false_eq_true, if_false, hp, course0Of, hf,
      urlExtAfter, courseIdAfter, hu]
  · intro u hp hu hc
    rw [step]
    simp only [hErr, Option.isSome_none, Bool.false_eq_true, if_false, hp, course0Of, hf,
      urlExtAfter, courseIdAfter, hu, hc]
  · intro u c hp hu hc
    rw [step]
    simp only [hErr, Option.isSome_none, Bool.false_eq_true, if_false, hp, course0Of, hf,
      urlExtAfter, courseIdAfter, hu, hc]
  · intro h hp hc
    rw [step]
    simp only [hErr, Option.isSome_none, Bool.false_eq_true, if_false, hp, course0Of, hf,
      urlExtAfter, courseIdAfter, hc]
  · intro h c hp hc
    rw [step]
    simp only [hErr, Option.isSome_none, Bool.false_eq_true, if_false, hp, course0Of, hf,
      urlExtAfter, courseIdAfter, hc]
    rfl

def c10st1 : LoopSt := ⟨some "L1?CourseID=1", some "1", [], [], none⟩

/-- C10 witness: at the post-row-1 state, a `CourseID`-less anchor row is
classified with its CURRENT href and the stale course id: all three criteria
hold against the archive and the row is skipped. -/
theorem c10_witness :
    step (some c10arch) "b/" "t" (listingHeaders c10page) c10st1 ⟨some "h2", ["x"]⟩ =
      { c10st1 with urlExt := some "h2" } := by
  have hth := c10_stale_names c10arch "b/" "t" (listingHeaders c10page) c10st1
      ⟨some "h2", ["x"]⟩ [("url", none), ("course_id", none), ("city", some "x")]
      rfl (by rfl)
  have h5 := hth.2.2.2.2 "h2" "1" (by rfl) rfl
  rw [h5]
  rfl

/-! ### Batch orchestration (C7) -/

/-- The successful per-scope record set, when there is one. -/
def okPdf : Except PyErr (Option PDF) → Option PDF
  | .ok (some p) => some p
  | _ => none

/-- The warning a scope's outcome produces: only a timeout (`None` return)
triggers one. -/
def warnOf (s : String) : Except PyErr (Option PDF) → List Sig
  | .ok none => [Sig.warnNoCourses s]
  | _ => []

theorem bfold (pages : String → Option ListingPage) (archive : Option (List ARow))
    (base now : String) (states : List String) :
    ∀ dfs0 sigs0,
    (∀ s ∈ states, ∃ r, (getCoursesByState (pages s) archive base now).1 = .ok r) →
    states.foldl (bstep pages archive base now) ⟨dfs0, sigs0, none⟩ =
      ⟨dfs0 ++ states.filterMap (fun s => okPdf (getCoursesByState (pages s) archive base now).1),
       sigs0 ++ (states.map (fun s => (getCoursesByState (pages s) archive base now).2
          ++ warnOf s (getCoursesByState (pages s) archive base now).1)).flatten,
       none⟩ := by
  induction states with
  | nil =>
    intro dfs0 sigs0 _
    simp
  | cons s ss ih =>
    intro dfs0 sigs0 hok
    rcases hok s (List.mem_cons_self s ss) with ⟨r, hr⟩
    rw [List.foldl_cons]
    have hok' : ∀ t ∈ ss, ∃ r, (getCoursesByState (pages t) archive base now).1 = .ok r :=
      fun t ht => hok t (List.mem_cons_of_mem s ht)
    rcases r with _ | p
    · have hb : bstep pages archive base now ⟨dfs0, sigs0, none⟩ s =
          ⟨dfs0, sigs0 ++ (getCoursesByState (pages s) archive base now).2
            ++ [Sig.warnNoCourses s], none⟩ := by
        rw [bstep]
        simp only [hr]
        rfl
      rw [hb, ih _ _ hok']
      simp [okPdf, warnOf, hr, List.append_assoc]
    · have hb : bstep pages archive base now ⟨dfs0, sigs0, none⟩ s =
          ⟨dfs0 ++ [p], sigs0 ++ (getCoursesByState (pages s) archive base now).2, none⟩ := by
        rw [bstep]
        simp only [hr]
        rfl
      rw [hb, ih _ _ hok']
      simp [okPdf, warnOf, hr, List.append_assoc]

/-- C7 counterexample: the claim says a timed-out scope "is never fatal to the
batch".  With a single scope that times out, the warning is emitted but the
final `pd.concat` of an empty list raises `ValueError`: the batch is fatal and
produces no aggregate. -/
theorem c7_counterexample :
    (getCourses (fun _ => none) ["A"] none "b/" "t")
      = (.error .valueError, [Sig.warnNoCourses "A"])
    ∧ ∀ p, (getCourses (fun _ => none) ["A"] none "b/" "t").1 ≠ .ok p := by
  refine ⟨rfl, ?_⟩
  intro p h
  have h' : (Except.error PyErr.valueError : Except PyErr PDF) = Except.ok p := h
  exact Except.noConfusion h'

/-- C7 as amended: when every scope's pull returns (no exception escapes) and
at least one yields a table, the batch never raises: the aggregate is the
concatenation of the record sets of the scopes that produced one, preserving
input scope order, and each timed-out scope contributes exactly a warning
naming it. -/
theorem c7_batch_aggregation (pages : String → Option ListingPage) (states : List String)
    (archive : Option (List ARow)) (base now : String)
    (hok : ∀ s ∈ states, ∃ r, (getCoursesByState (pages s) archive base now).1 = .ok r)
    (hsome : ∃ s, s ∈ states ∧
      ∃ p, (getCoursesByState (pages s) archive base now).1 = .ok (some p)) :
    getCourses pages states archive base now =
      (.ok (concatPDF (states.filterMap
            (fun s => okPdf (getCoursesByState (pages s) archive base now).1))),
       (states.map (fun s => (getCoursesByState (pages s) archive base now).2
          ++ warnOf s (getCoursesByState (pages s) archive base now).1)).flatten) := by
  unfold getCourses
  rw [show (⟨[], [], none⟩ : BatchSt) = ⟨[], [], none⟩ from rfl,
    bfold pages archive base now states [] [] hok]
  have hne : states.filterMap
      (fun s => okPdf (getCoursesByState (pages s) archive base now).1) ≠ [] := by
    rcases hsome with ⟨s, hs, p, hp⟩
    intro hnil
    have hv : okPdf (getCoursesByState (pages s) archive base now).1 = some p := by
      rw [hp]
      rfl
    have hmem : p ∈ states.filterMap
        (fun s => okPdf (getCoursesByState (pages s) archive base now).1) :=
      List.mem_filterMap.mpr ⟨s, hs, hv⟩
    rw [hnil] at hmem
    exact absurd hmem (List.not_mem_nil p)
  have hempty : (states.filterMap
      (fun s => okPdf (getCoursesByState (pages s) archive base now).1)).isEmpty = false := by
    rcases hl : states.filterMap
        (fun s => okPdf (getCoursesByState (pages s) archive base now).1) with _ | ⟨x, xs⟩
    · exact absurd hl hne
    · rfl
  simp [hempty]

def c7pages : String → Option ListingPage := fun s =>
  if s = "B" then none
  else if s = "A" then some ⟨["City"], [⟨some "a?CourseID=1", ["adena"]⟩]⟩
  else some ⟨["City"], [⟨some "c?CourseID=2", ["cody"]⟩]⟩

/-- C7 witness: the spec's `[A, B, C]` instance, with B timing out: the
aggregate is `concat(records(A), records(C))` in that order and the only
signal is the warning naming B. -/
theorem c7_witness :
    getCourses c7pages ["A", "B", "C"] none "b/" "t" =
      (.ok (concatPDF (["A", "B", "C"].filterMap
            (fun s => okPdf (getCoursesByState (c7pages s) none "b/" "t").1))),
       (["A", "B", "C"].map (fun s => (getCoursesByState (c7pages s) none "b/" "t").2
          ++ warnOf s (getCoursesByState (c7pages s) none "b/" "t").1)).flatten) := by
  refine c7_batch_aggregation c7pages ["A", "B", "C"] none "b/" "t" ?_ ⟨"A", by decide, ?_⟩
  · intro s hs
    fin_cases hs
    · exact ⟨_, rfl⟩
    · exact ⟨_, rfl⟩
    · exact ⟨_, rfl⟩
  · exact ⟨_, rfl⟩

/-! ### Detail extraction pipeline (C6) -/

/-- C6 counterexample: `str.strip('_')` trims underscores from BOTH ends, not
only the trailing ones.  A header cell with leading whitespace (`" a"`) maps
to `"a"` in the code but to `"_a"` under the claim's trailing-only trim, so
the claimed pipeline produces a different DataFrame. -/
theorem c6_counterexample :
    getCourseDetails (.table [[" a", "", "ch"], ["B", "C", "D"]]) "7"
      = .ok (some ⟨["course_id", "a"], [["7", "b"]]⟩)
    ∧ getCourseDetailsClaimed (.table [[" a", "", "ch"], ["B", "C", "D"]]) "7"
      = .ok (some ⟨["course_id", "_a"], [["7", "b"]]⟩)
    ∧ (⟨["course_id", "a"], [["7", "b"]]⟩ : DDF) ≠ ⟨["course_id", "_a"], [["7", "b"]]⟩ := by
  exact ⟨rfl, rfl, by decide⟩

theorem zip_append_of_len :
    ∀ (l1 l2 : List String), l1.length = l2.length → ∀ r1 r2 : List String,
      (l1 ++ r1).zip (l2 ++ r2) = l1.zip l2 ++ r1.zip r2 := by
  intro l1
  induction l1 with
  | nil =>
    intro l2 h r1 r2
    rcases l2 with _ | ⟨b, l2⟩
    · rfl
    · simp at h
  | cons a l1 ih =>
    intro l2 h r1 r2
    rcases l2 with _ | ⟨b, l2⟩
    · simp at h
    · simp only [List.cons_append, List.zip_cons_cons, List.cons.injEq]
      exact ⟨trivial, ih l2 (by simpa using h) r1 r2⟩

theorem map_snd_zip_of_len :
    ∀ (l1 l2 : List String), l1.length = l2.length → (l1.zip l2).map Prod.snd = l2 := by
  intro l1
  induction l1 with
  | nil =>
    intro l2 h
    rcases l2 with _ | ⟨b, l2⟩
    · rfl
    · simp at h
  | cons a l1 ih =>
    intro l2 h
    rcases l2 with _ | ⟨b, l2⟩
    · simp at h
    · simp only [List.zip_cons_cons, List.map_cons, List.cons.injEq]
      exact ⟨trivial, ih l2 (by simpa using h)⟩

theorem zip_filterMap_keep_len :
    ∀ (l1 l2 : List String), l1.length = l2.length →
      ((l1.zip l2).filterMap (fun q => if keepCol q.1 then some q.2 else none)).length
        = (l1.filter keepCol).length := by
  intro l1
  induction l1 with
  | nil =>
    intro l2 h
    simp
  | cons a l1 ih =>
    intro l2 h
    rcases l2 with _ | ⟨b, l2⟩
    · simp at h
    · simp only [List.zip_cons_cons, List.filterMap_cons, List.filter_cons]
      by_cases hp : keepCol a = true
      · simp only [hp, if_true]
        simp [ih l2 (by simpa using h)]
      · simp only [Bool.not_eq_true] at hp
        simp only [hp]
        simp [ih l2 (by simpa using h)]

theorem find?_append_of_none (p : String × String → Bool) :
    ∀ (l1 l2 : List (String × String)), l1.find? p = none →
      (l1 ++ l2).find? p = l2.find? p := by
  intro l1
  induction l1 with
  | nil =>
    intro l2 _
    rfl
  | cons a l1 ih =>
    intro l2 h
    rw [List.find?_cons] at h
    rcases hp : p a with _ | _
    · rw [List.cons_append, List.find?_cons, hp]
      rw [hp] at h
      exact ih l2 h
    · rw [hp] at h
      exact absurd h (by simp)

/-- C6 as amended: for every tee table whose data rows match the header width,
whose transformed header contains the `''` and `ch` labels and no `course_id`
collision, the extracted DataFrame is: header = first row transformed by
lowercase, whitespace-to-underscore, strip of characters outside
`[A-Za-z0-9._/]` and trim of BOTH leading and trailing underscores, with the
`''`/`ch` columns dropped and `course_id` first; each remaining row's cells
lowercased and stripped of characters outside `[A-Za-z0-9./]`, tagged with the
supplied course id in front, keeping exactly the cells of surviving columns. -/
theorem c6_detail_pipeline (hc : List String) (rest : List (List String)) (cid : String)
    (hlen : ∀ r ∈ rest, r.length = hc.length)
    (hemp : "" ∈ hc.map headerXform)
    (hch : "ch" ∈ hc.map headerXform)
    (hnocid : "course_id" ∉ hc.map headerXform) :
    getCourseDetails (.table (hc :: rest)) cid =
      .ok (some ⟨"course_id" :: (hc.map headerXform).filter keepCol,
        rest.map (fun r => cid :: (((hc.map headerXform).zip (r.map cellXform)).filterMap
          (fun q => if keepCol q.1 then some q.2 else none)))⟩) := by
  have hxlen : (hc.map headerXform).length = hc.length := List.length_map hc headerXform
  have hA : (rest.map (fun r => r.map cellXform ++ [cid])).any
      (fun r => r.length != ((hc.map headerXform) ++ ["course_id"]).length) = false := by
    rw [List.any_eq_false]
    intro rr hrr
    rcases List.mem_map.mp hrr with ⟨r, hr, rfl⟩
    simp [List.length_append, List.length_map, hlen r hr]
  have hB : (((hc.map headerXform) ++ ["course_id"]).any (fun n => n == "")) = true :=
    List.any_eq_true.mpr ⟨"", List.mem_append_left _ hemp, by simp⟩
  have hC : (((hc.map headerXform) ++ ["course_id"]).any (fun n => n == "ch")) = true :=
    List.any_eq_true.mpr ⟨"ch", List.mem_append_left _ hch, by simp⟩
  have hfil : ((hc.map headerXform) ++ ["course_id"]).filter keepCol
      = (hc.map headerXform).filter keepCol ++ ["course_id"] := by
    rw [List.filter_append, show List.filter keepCol ["course_id"] = ["course_id"] from rfl]
  have hncid_fil : "course_id" ∉ (hc.map headerXform).filter keepCol :=
    fun hm => hnocid (List.mem_of_mem_filter hm)
  have hcount : ((hc.map headerXform).filter keepCol ++ ["course_id"]).count "course_id"
      = 1 := by
    rw [List.count_append, List.count_eq_zero.mpr hncid_fil]
    rfl
  have hErase : ((hc.map headerXform).filter keepCol ++ ["course_id"]).erase "course_id"
      = (hc.map headerXform).filter keepCol := by
    rw [List.erase_append_right _ hncid_fil]
    simp
  simp only [getCourseDetails, hA, Bool.false_eq_true, if_false, hB, hC, Bool.not_true,
    Bool.false_or, Bool.or_false, hfil, hcount]
  norm_num
  rw [hErase]
  refine ⟨rfl, ?_⟩
  intro r hr
  have hrlen : (r.map cellXform).length = (hc.map headerXform).length := by
    rw [List.length_map, List.length_map]
    exact hlen r hr
  rw [zip_append_of_len _ _ hrlen.symm]
  rw [List.filterMap_append]
  have hsingle : (["course_id"].zip [cid]).filterMap
      (fun q => if keepCol q.1 then some q.2 else none) = [cid] := rfl
  rw [hsingle]
  set A := ((hc.map headerXform).zip (r.map cellXform)).filterMap
      (fun q => if keepCol q.1 then some q.2 else none) with hAdef
  have hAlen : A.length = ((hc.map headerXform).filter keepCol).length :=
    zip_filterMap_keep_len _ _ hrlen.symm
  rw [zip_append_of_len _ _ hAlen.symm]
  have hfind1 : (((hc.map headerXform).filter keepCol).zip A).find?
      (fun q => q.1 == "course_id") = none := by
    rw [List.find?_eq_none]
    intro q hq
    have hq1 : q.1 ∈ (hc.map headerXform).filter keepCol := (List.of_mem_zip hq).1
    have : q.1 ≠ "course_id" := fun he => hncid_fil (he ▸ hq1)
    simp [this]
  rw [find?_append_of_none _ _ _ hfind1]
  have hfind2 : ((["course_id"].zip [cid]).find? (fun q => q.1 == "course_id"))
      = some ("course_id", cid) := rfl
  rw [hfind2]
  simp only [List.filter_append]
  have hpass : (((hc.map headerXform).filter keepCol).zip A).filter
      (fun q2 => !(q2.1 == "course_id")) = ((hc.map headerXform).filter keepCol).zip A := by
    rw [List.filter_eq_self]
    intro q hq
    have hq1 : q.1 ∈ (hc.map headerXform).filter keepCol := (List.of_mem_zip hq).1
    have : q.1 ≠ "course_id" := fun he => hncid_fil (he ▸ hq1)
    simp [this]
  rw [hpass, show (["course_id"].zip [cid]).filter (fun q2 => !(q2.1 == "course_id")) = []
    from rfl]
  rw [List.append_nil, map_snd_zip_of_len _ _ hAlen.symm]

/-- C6 witness: a concrete tee table extracted end to end. -/
theorem c6_witness :
    getCourseDetails (.table [["", "ch", "Course Rating"], ["a", "b", "71.5/113"]]) "7"
      = .ok (some ⟨["course_id", "course_rating"], [["7", "71.5/113"]]⟩) := by
  have hth := c6_detail_pipeline ["", "ch", "Course Rating"] [["a", "b", "71.5/113"]] "7"
      (by decide) (by decide) (by decide) (by decide)
  rw [hth]
  rfl

/-! ### Snapshot round-trip (C8) -/

theorem fsWrite_same (fs : FS) (n : String) (f : CsvFile) : fsWrite fs n f n = some f := by
  simp [fsWrite]

theorem fsWrite_other (fs : FS) (n : String) (f : CsvFile) (m : String) (h : m ≠ n) :
    fsWrite fs n f m = fs m := by
  simp [fsWrite, h]

theorem readFile_encode (v : Option (List (Nat × Rec))) :
    readFile (some (encodeBucket v)) = v := by
  rcases v with _ | d <;> rfl

theorem osJoin_detailFile_ne (folder today k1 k2 : String) (c1 c2 : Char)
    (t1 t2 : List Char) (h1 : k1.data = c1 :: t1) (h2 : k2.data = c2 :: t2)
    (hne : c1 ≠ c2) :
    osJoin folder (detailFile k1 today) ≠ osJoin folder (detailFile k2 today) := by
  intro heq
  have hd := congrArg String.data heq
  simp only [osJoin, detailFile, String.data_append, List.append_assoc] at hd
  have hd1 := List.append_cancel_left hd
  have hd2 := List.append_cancel_left hd1
  rw [h1, h2] at hd2
  have hh := congrArg List.head? hd2
  simp only [List.cons_append, List.head?_cons, Option.some.injEq] at hh
  exact hne hh

/-- C8: (a) saving writes exactly one file per bucket — the placeholder (empty
file) for an absent bucket, the frame's csv otherwise — and loading the same
date and folder back reproduces every bucket's contents, with absent buckets
round-tripping to absent; (b) loading a bucket whose file is missing or
unparsable yields the absent marker for it without raising. -/
theorem c8_snapshot_roundtrip :
    (∀ (dfs : Buckets) (folder today : String) (fs : FS) (fmt : String → String)
       (va vn vf vm vs : Option (List (Nat × Rec))),
      blook dfs "all_courses" = some va → blook dfs "new_courses" = some vn →
      blook dfs "failed_courses" = some vf → blook dfs "modified_courses" = some vm →
      blook dfs "skipped_courses" = some vs →
      ∃ fs', storeCourseDetails dfs folder today fs = .ok fs'
        ∧ fs' (osJoin folder (detailFile "all" today)) = some (encodeBucket va)
        ∧ fs' (osJoin folder (detailFile "new" today)) = some (encodeBucket vn)
        ∧ fs' (osJoin folder (detailFile "failed" today)) = some (encodeBucket vf)
        ∧ fs' (osJoin folder (detailFile "modified" today)) = some (encodeBucket vm)
        ∧ fs' (osJoin folder (detailFile "skipped" today)) = some (encodeBucket vs)
        ∧ (restoreCourseDetails .noneA .noneD folder fs' today fmt).1
            = .ok [("all_courses", va), ("new_courses", vn), ("failed_courses", vf),
                   ("modified_courses", vm), ("skipped_courses", vs)])
    ∧ (∀ (fs : FS) (folder today : String) (fmt : String → String) (k kind : String),
        k ∈ names5 → bucketKind k = some kind →
        readFile (fs (osJoin folder (detailFile kind today))) = none →
        (restoreCourseDetails (.listA [k]) .noneD folder fs today fmt).1
          = .ok [(k, none)]) := by
  constructor
  · intro dfs folder today fs fmt va vn vf vm vs h1 h2 h3 h4 h5
    have hne_an := osJoin_detailFile_ne folder today "all" "new" 'a' 'n' _ _ rfl rfl
      (by decide)
    have hne_af := osJoin_detailFile_ne folder today "all" "failed" 'a' 'f' _ _ rfl rfl
      (by decide)
    have hne_am := osJoin_detailFile_ne folder today "all" "modified" 'a' 'm' _ _ rfl rfl
      (by decide)
    have hne_as := osJoin_detailFile_ne folder today "all" "skipped" 'a' 's' _ _ rfl rfl
      (by decide)
    have hne_nf := osJoin_detailFile_ne folder today "new" "failed" 'n' 'f' _ _ rfl rfl
      (by decide)
    have hne_nm := osJoin_detailFile_ne folder today "new" "modified" 'n' 'm' _ _ rfl rfl
      (by decide)
    have hne_ns := osJoin_detailFile_ne folder today "new" "skipped" 'n' 's' _ _ rfl rfl
      (by decide)
    have hne_fm := osJoin_detailFile_ne folder today "failed" "modified" 'f' 'm' _ _ rfl rfl
      (by decide)
    have hne_fs := osJoin_detailFile_ne folder today "failed" "skipped" 'f' 's' _ _ rfl rfl
      (by decide)
    have hne_ms := osJoin_detailFile_ne folder today "modified" "skipped" 'm' 's' _ _ rfl rfl
      (by decide)
    refine ⟨fsWrite (fsWrite (fsWrite (fsWrite (fsWrite fs
        (osJoin folder (detailFile "all" today)) (encodeBucket va))
        (osJoin folder (detailFile "new" today)) (encodeBucket vn))
        (osJoin folder (detailFile "failed" today)) (encodeBucket vf))
        (osJoin folder (detailFile "modified" today)) (encodeBucket vm))
        (osJoin folder (detailFile "skipped" today)) (encodeBucket vs),
        ?_, ?_, ?_, ?_, ?_, ?_, ?_⟩
    · simp only [storeCourseDetails, names5, List.foldl_cons, List.foldl_nil, h1, h2, h3,
        h4, h5]
      rfl
    · rw [fsWrite_other _ _ _ _ hne_as, fsWrite_other _ _ _ _ hne_am,
        fsWrite_other _ _ _ _ hne_af, fsWrite_other _ _ _ _ hne_an, fsWrite_same]
    · rw [fsWrite_other _ _ _ _ hne_ns, fsWrite_other _ _ _ _ hne_nm,
        fsWrite_other _ _ _ _ hne_nf, fsWrite_same]
    · rw [fsWrite_other _ _ _ _ hne_fs, fsWrite_other _ _ _ _ hne_fm, fsWrite_same]
    · rw [fsWrite_other _ _ _ _ hne_ms, fsWrite_same]
    · rw [fsWrite_same]
    · simp only [restoreCourseDetails, names5, List.map_cons, List.map_nil, List.zip_cons_cons,
        List.zip_nil_right, readBuckets,
        show bucketKind "all_courses" = some "all" from rfl,
        show bucketKind "new_courses" = some "new" from rfl,
        show bucketKind "failed_courses" = some "failed" from rfl,
        show bucketKind "modified_courses" = some "modified" from rfl,
        show bucketKind "skipped_courses" = some "skipped" from rfl]
      rw [fsWrite_same,
        fsWrite_other _ _ _ _ hne_ms, fsWrite_same,
        fsWrite_other _ _ _ _ hne_fs, fsWrite_other _ _ _ _ hne_fm, fsWrite_same,
        fsWrite_other _ _ _ _ hne_ns, fsWrite_other _ _ _ _ hne_nm,
        fsWrite_other _ _ _ _ hne_nf, fsWrite_same,
        fsWrite_other _ _ _ _ hne_as, fsWrite_other _ _ _ _ hne_am,
        fsWrite_other _ _ _ _ hne_af, fsWrite_other _ _ _ _ hne_an, fsWrite_same]
      rw [readFile_encode, readFile_encode, readFile_encode, readFile_encode,
        readFile_encode]
  · intro fs folder today fmt k kind hk hbk hread
    have hval : ([k].any (fun d => !(names5.any (fun t => t == d)))) = false := by
      have hany : (names5.any (fun t => t == k)) = true :=
        List.any_eq_true.mpr ⟨k, hk, beq_self_eq_true k⟩
      simp [hany]
    simp only [restoreCourseDetails, hval, Bool.false_eq_true, if_false, List.map_cons,
      List.map_nil, List.zip_cons_cons, List.zip_nil_right, readBuckets, hbk, hread]

def c8dfs : Buckets :=
  [("all_courses", some [(0, Rec.fromListing ⟨"1", "u"⟩)]), ("new_courses", none),
   ("failed_courses", none), ("modified_courses", none), ("skipped_courses", none)]

/-- C8 witness: a concrete bucketed result set round-trips through an empty
filesystem. -/
theorem c8_witness :
    ∃ fs', storeCourseDetails c8dfs "data" "20240101" (fun _ => none) = .ok fs'
      ∧ (restoreCourseDetails .noneA .noneD "data" fs' "20240101" id).1
          = .ok [("all_courses", some [(0, Rec.fromListing ⟨"1", "u"⟩)]),
                 ("new_courses", none), ("failed_courses", none), ("modified_courses", none),
                 ("skipped_courses", none)] := by
  rcases c8_snapshot_roundtrip.1 c8dfs "data" "20240101" (fun _ => none) id
      (some [(0, Rec.fromListing ⟨"1", "u"⟩)]) none none none none rfl rfl rfl rfl rfl with
    ⟨fs', hst, -, -, -, -, -, hres⟩
  exact ⟨fs', hst, hres⟩

/-! ### Invalid caller input (C9) -/

/-- C9 counterexample: the claim says an unrecognized `returns` value makes
`get_states` raise "immediately ... before any I/O is attempted".  In the
code the page request of line 31 happens FIRST, and the `NameError` only
fires upon the first non-placeholder dropdown option — a page whose dropdown
holds only the `(Select)` placeholder returns normally, raising nothing at
all. -/
theorem c9_counterexample :
    ¬ (∀ (opts : List (String × String)) (returns : String),
        returns ≠ "state_name_only" → returns ≠ "state_name_and_id" →
        (∃ e, (getStates opts returns).1 = .error e) ∧ (getStates opts returns).2 = []) := by
  intro hcl
  rcases hcl [("(Select)", "0")] "bogus" (by decide) (by decide) with ⟨⟨e, he⟩, -⟩
  have he' : (Except.ok [] : Except PyErr (List StateItem)) = Except.error e := he
  exact Except.noConfusion he'

/-- C9 as amended: `restore_course_details` with a list of valid bucket names
and a date list of a different length raises `LookupError` before any file is
read; `get_states` with an unrecognized output-shape selector performs the
page fetch first and then raises `NameError` if and only if the dropdown
contains a non-placeholder option. -/
theorem c9_invalid_input :
    (∀ (l ld : List String) (folder : String) (fs : FS) (today : String)
       (fmt : String → String),
      (∀ k ∈ l, k ∈ names5) → l.length ≠ ld.length →
      restoreCourseDetails (.listA l) (.listD ld) folder fs today fmt
        = (.error .lookupError, []))
    ∧ (∀ (opts : List (String × String)) (returns : String),
        returns ≠ "state_name_only" → returns ≠ "state_name_and_id" →
        (getStates opts returns).2 = [GEv.fetchPage]
        ∧ ((∃ p ∈ opts, p.1 ≠ "(Select)") →
            (getStates opts returns).1 = .error .nameError)
        ∧ ((∀ p ∈ opts, p.1 = "(Select)") → (getStates opts returns).1 = .ok [])) := by
  constructor
  · intro l ld folder fs today fmt hvalid hlen
    have hval : (l.any (fun d => !(names5.any (fun t => t == d)))) = false := by
      rw [List.any_eq_false]
      intro k hk
      have hany : (names5.any (fun t => t == k)) = true :=
        List.any_eq_true.mpr ⟨k, hvalid k hk, beq_self_eq_true k⟩
      simp [hany]
    have hlen' : (ld.length = l.length) = False := by
      simp only [eq_iff_iff, iff_false]
      exact fun he => hlen he.symm
    simp only [restoreCourseDetails, hval, Bool.false_eq_true, if_false, hlen', if_false]
  · intro opts returns hr1 hr2
    refine ⟨rfl, ?_, ?_⟩
    · rintro ⟨p, hp, hps⟩
      induction opts with
      | nil => exact absurd hp (List.not_mem_nil p)
      | cons q qs ih =>
        show statesLoop returns (q :: qs) = .error .nameError
        rcases List.mem_cons.mp hp with rfl | hp'
        · have hq : (p.1 == "(Select)") = false := by
            simp [hps]
          rcases p with ⟨t, v⟩
          simp only [statesLoop, hq, Bool.false_eq_true, if_false,
            show (returns == "state_name_only") = false by simp [hr1],
            show (returns == "state_name_and_id") = false by simp [hr2]]
        · rcases q with ⟨t, v⟩
          by_cases ht : (t == "(Select)") = true
          · simp only [statesLoop, ht, if_true]
            exact ih hp'
          · simp only [statesLoop, Bool.not_eq_true] at ht
            simp only [statesLoop, ht, Bool.false_eq_true, if_false,
              show (returns == "state_name_only") = false by simp [hr1],
              show (returns == "state_name_and_id") = false by simp [hr2]]
    · intro hall
      induction opts with
      | nil => rfl
      | cons q qs ih =>
        have hq : (q.1 == "(Select)") = true := by
          simp [hall q (List.mem_cons_self q qs)]
        rcases q with ⟨t, v⟩
        show statesLoop returns ((t, v) :: qs) = .ok []
        simp only [statesLoop, hq, if_true]
        exact ih (fun p hp => hall p (List.mem_cons_of_mem _ hp))

/-- C9 witness: a concrete mismatched restore call raises with no file read,
and a concrete invalid `get_states` call raises after its page fetch. -/
theorem c9_witness :
    restoreCourseDetails (.listA ["all_courses"]) (.listD ["20240101", "20240102"])
        "data" (fun _ => none) "t" id = (.error .lookupError, [])
    ∧ (getStates [("Alabama", "1")] "bogus").1 = .error .nameError
    ∧ (getStates [("Alabama", "1")] "bogus").2 = [GEv.fetchPage] := by
  refine ⟨?_, ?_, ?_⟩
  · exact c9_invalid_input.1 ["all_courses"] ["20240101", "20240102"] "data"
      (fun _ => none) "t" id (by decide) (by decide)
  · exact (c9_invalid_input.2 [("Alabama", "1")] "bogus" (by decide) (by decide)).2.1
      ⟨("Alabama", "1"), by decide, by decide⟩
  · exact (c9_invalid_input.2 [("Alabama", "1")] "bogus" (by decide) (by decide)).1

end Usga
